import Mathlib

/-!
Verification of the tacc-sync pipeline (WIPACrepo/tacc-sync) against its
natural-language specification.

The Rust sources are shallowly embedded here:
* strings are modelled as Lean `String` (Rust compares and slices byte-wise;
  the paths and labels involved are compared character-wise here, which agrees
  on the ASCII data the pipeline handles);
* `u64` values are modelled as `Nat` (sizes and tape coordinates are only
  compared and summed, never overflowed);
* UUIDs and timestamps are modelled as `Nat` (opaque identifiers);
* fallible Rust code returns `Except`/`Option`; a Rust `panic!`/`.expect`
  abort is modelled by a dedicated constructor so that aborting is
  distinguishable from returning `Err`;
* external CLI invocations (`hsi`, `globus`) and the filesystem are modelled
  by explicit oracle parameters and operation traces.

The file is laid out as the complete data model and operations first,
followed by all theorems.
-/

/-- TaccSyncFile as declared in src/lib.rs: the persisted WorkFile record.
Note that the declaration in lib.rs has exactly these five fields and no
`globus_task_id` field. -/
structure TaccSyncFile where
  file_name : String
  hpss_path : String
  size : Nat
  tape_num : Nat
  tape_offset : Nat
deriving DecidableEq, Repr

/-- The serde field names of the lib.rs `TaccSyncFile` record, in declaration
order; this is the JSON shape in which every WorkFile is persisted. -/
def tacc_sync_file_fields : List String :=
  ["file_name", "hpss_path", "size", "tape_num", "tape_offset"]

/-- TaccSyncWork as declared in src/lib.rs: a tape-grouped work unit. -/
structure TaccSyncWork where
  work_id : Nat
  date_created : Nat
  tape : String
  size : Nat
  request_id : Nat
  files : List TaccSyncFile
  transfer_id : Option Nat
deriving DecidableEq, Repr

/-- TaccSyncRequest as declared in src/lib.rs. -/
structure TaccSyncRequest where
  request_id : Nat
  date_created : Nat
  source : String
  dest : String
  pattern : String
deriving DecidableEq, Repr

/-- Result of lib.rs `load_work_from_file`. The function opens and reads the
file with `.expect(...)` (a panic that aborts the process on any I/O error)
and only returns `Err` for a serde parse failure. `panicked` models the
abort; `err` models the `Err` return. -/
inductive LoadOutcome (α : Type) where
  | ok (a : α)
  | err
  | panicked
deriving DecidableEq, Repr

/-- lib.rs `load_work_from_file`: `File::open(...).expect("file not found")`
and `read_to_string(...).expect(...)` panic on I/O failure (modelled by
`contents = none`); otherwise the contents are parsed by serde (modelled by
the `parse` oracle), whose failure is returned as `Err`. -/
def load_work_from_file (contents : Option String)
    (parse : String → Option TaccSyncWork) : LoadOutcome TaccSyncWork :=
  match contents with
  | none => .panicked
  | some s =>
    match parse s with
    | none => .err
    | some w => .ok w

namespace Finisher

/-- What becomes of the request file examined by finisher.rs
`process_sync_request`: moved to the finished outbox, left in its inbox, or
the whole process aborts (a panic escaped the scan). -/
inductive FinOutcome where
  | forwarded
  | leftInPlace
  | aborted
deriving DecidableEq, Repr

/-- The inner scan of finisher.rs `process_sync_request` over the work files
of the checked directories, each entry being the `load_work_from_file`
result for one `.json` file.  A loaded work unit with matching `request_id`
returns early leaving the request in place; a load `Err` also returns early
leaving the request in place; a load panic aborts the process.  If the scan
exhausts every file, the request is forwarded. -/
def scan_work_files (request_id : Nat) : List (LoadOutcome TaccSyncWork) → FinOutcome
  | [] => .forwarded
  | .ok w :: rest =>
    if w.request_id = request_id then .leftInPlace
    else scan_work_files request_id rest
  | .err :: _ => .leftInPlace
  | .panicked :: _ => .aborted

/-- finisher.rs `process_sync_request`: the three configured directories
(HPSS_DIR, GLOBUS_DIR, REAPER_DIR) are checked in order; each directory
contributes the load results of its `.json` files. -/
def process_sync_request (request_id : Nat)
    (hpss_dir globus_dir reaper_dir : List (LoadOutcome TaccSyncWork)) : FinOutcome :=
  scan_work_files request_id (hpss_dir ++ globus_dir ++ reaper_dir)

end Finisher

namespace Retriever

/-- The batch script retriever.rs `process_work` writes for hsi: one
`get -C -P (local) : (remote)` line per WorkFile, with the local path under
`TRANSFER_DIR/(work_id)/`. -/
def hsi_batch_lines (transfer_dir : String) (work : TaccSyncWork) : List String :=
  work.files.map fun file =>
    "get -C -P " ++ transfer_dir ++ "/" ++ toString work.work_id ++ "/"
      ++ file.file_name ++ " : " ++ file.hpss_path

/-- retriever.rs `process_work`: creates the transfer-buffer directory,
writes the hsi batch file, runs `hsi -P in (batch)` (its exit code and
stdout are modelled by `hsi_exit_code` and are only debug-logged, never
inspected), removes the batch file, and returns `true` unconditionally.
The returned pair is (batch script lines, reported success). -/
def process_work (transfer_dir : String) (work : TaccSyncWork)
    (hsi_exit_code : Nat) : List String × Bool :=
  let batch := hsi_batch_lines transfer_dir work
  let _ := hsi_exit_code
  (batch, true)

/-- One `.json` entry of the Retriever inbox for a cycle: either it loads as
a WorkUnit (with the exit code the hsi batch copy for it would report), or
its load fails. -/
inductive REntry where
  | loadable (work : TaccSyncWork) (hsi_exit_code : Nat)
  | unloadable
deriving DecidableEq, Repr

/-- What the Retriever's main loop does with one inbox entry in a cycle. -/
inductive ROutcome where
  | staged
  | quarantined
  | untouched
deriving DecidableEq, Repr

/-- The work loop of retriever.rs `main`, lines 54-78.  `measures` is the
oracle of `calculate_directory_size(TRANSFER_DIR)` results, consumed one
per loadable entry (the size is only computed inside the load-ok branch).
If the measured size plus the unit's size exceeds the quota the loop
breaks, leaving that unit and every later entry untouched; otherwise
`process_work` runs and the unit is forwarded on `true`, quarantined on
`false`.  An entry that fails to load is quarantined. -/
def retriever_cycle (quota : Nat) (transfer_dir : String) :
    List Nat → List REntry → List ROutcome
  | _, [] => []
  | measures, .unloadable :: rest =>
    .quarantined :: retriever_cycle quota transfer_dir measures rest
  | measures, .loadable work e :: rest =>
    let space_required := measures.headD 0 + work.size
    if quota < space_required then
      .untouched :: rest.map (fun _ => .untouched)
    else
      (if (process_work transfer_dir work e).2 then .staged else .quarantined)
        :: retriever_cycle quota transfer_dir measures.tail rest

/-- The directory-size measurement consumed when the cycle's loop reaches
entry `i` and finds it loadable: `none` if the loop broke earlier, or if
position `i` does not hold a loadable entry. -/
def reach_measure (quota : Nat) : List Nat → List REntry → Nat → Option Nat
  | _, [], _ => none
  | measures, .loadable _ _ :: _, 0 => some (measures.headD 0)
  | _, .unloadable :: _, 0 => none
  | measures, .unloadable :: rest, i + 1 => reach_measure quota measures rest i
  | measures, .loadable work _ :: rest, i + 1 =>
    if quota < measures.headD 0 + work.size then none
    else reach_measure quota measures.tail rest i

/-- A 50-byte work unit used to exercise the quota break concretely
(spec §8, quota-starvation scenario). -/
def demo_unit_50 : TaccSyncWork :=
  { work_id := 7, date_created := 0, tape := "AG084600", size := 50,
    request_id := 3, files := [], transfer_id := none }

end Retriever

namespace Syncer

/-- Rust byte strings handled by the Planner (paths, tape labels, metadata
lines) are modelled as lists of characters, so that comparisons and
splitting compute in the kernel exactly as Rust's byte-wise operations do
on this ASCII data. -/
abbrev Str := List Char

/-- HpssFile from src/lib.rs: the ephemeral per-file tape metadata the
Planner works with. -/
structure HpssFile where
  hpss_path : Str
  size : Nat
  tape : Str
  tape_num : Nat
  tape_offset : Nat
deriving DecidableEq, Repr

/-- syncer.rs: we expect 13 fields from an hsi metadata query. -/
def NUM_HSI_METADATA_FIELDS : Nat := 13

/-- Rust `str::split(sep)`: splits at every occurrence of the separator;
the empty string yields one empty field, and the result is never empty. -/
def split_on (sep : Char) : Str → List Str
  | [] => [[]]
  | c :: rest =>
    let ss := split_on sep rest
    if c = sep then [] :: ss
    else (c :: ss.headD []) :: ss.tail

/-- Rust `str::parse::<u64>()` on the decimal numerals hsi emits: all-digit
nonempty strings parse to their value, anything else is an `Err` (which the
`.unwrap()` call in syncer.rs turns into a panic). -/
def parse_u64 (s : Str) : Option Nat :=
  if s = [] then none
  else if s.all (fun c => c.isDigit) then
    some (s.foldl (fun acc c => acc * 10 + (c.toNat - '0'.toNat)) 0)
  else none

/-- One iteration of the loop in syncer.rs `parse_tape_metadata`
(lines 194-230): split the line on tabs; skip it if field 0 is not FILE
(the result `ok none`); panic (`error`) if there are not exactly 13 fields
(the BAD MOJO branch) or if a numeric field fails to parse (`.unwrap()`);
otherwise produce the HpssFile (`ok some`).  A tape label shorter than 3
characters is coerced to "0"; `tape_num+tape_offset` is read from field 4
when it contains a plus, else both default to 0. -/
def parse_metadata_line (metadata : Str) : Except String (Option HpssFile) :=
  let fields := split_on '\t' metadata
  if fields.headD [] ≠ ['F', 'I', 'L', 'E'] then .ok none
  else if fields.length ≠ NUM_HSI_METADATA_FIELDS then
    .error "BAD MOJO - hsi metadata parse error: NUM_HSI_METADATA_FIELDS"
  else
    let tape := if (fields.getD 5 []).length < 3 then ['0'] else fields.getD 5 []
    let pos := fields.getD 4 []
    let tape_pos := split_on '+' pos
    let tape_num_s := if pos.contains '+' then tape_pos.getD 0 [] else ['0']
    let tape_offset_s := if pos.contains '+' then tape_pos.getD 1 [] else ['0']
    match parse_u64 (fields.getD 2 []), parse_u64 tape_num_s, parse_u64 tape_offset_s with
    | some size, some tn, some toff =>
      .ok (some { hpss_path := fields.getD 1 [], size := size, tape := tape,
                  tape_num := tn, tape_offset := toff })
    | _, _, _ => .error "called Result::unwrap() on an Err value"

/-- syncer.rs `parse_tape_metadata`: parse the metadata lines in order; a
panic on any line aborts the process (`error`), otherwise the parsed files
are collected in order. -/
def parse_tape_metadata : List Str → Except String (List HpssFile)
  | [] => .ok []
  | line :: rest =>
    match parse_metadata_line line with
    | .error e => .error e
    | .ok none => parse_tape_metadata rest
    | .ok (some f) =>
      match parse_tape_metadata rest with
      | .error e => .error e
      | .ok fs => .ok (f :: fs)

/-- Rust `Ord::cmp` on a linearly ordered component. -/
def cmp_key {α : Type} [LinearOrder α] (a b : α) : Ordering :=
  if a < b then .lt else if a = b then .eq else .gt

/-- The comparator passed to `sort_by` in syncer.rs `group_files_by_tape`
(lines 240-245): tape, then tape_num, then tape_offset, then hpss_path,
chained with `then_with`. -/
def cmp_hpss (a b : HpssFile) : Ordering :=
  (cmp_key a.tape b.tape).then
    ((cmp_key a.tape_num b.tape_num).then
      ((cmp_key a.tape_offset b.tape_offset).then
        (cmp_key a.hpss_path b.hpss_path)))

/-- Rust `sort_by` keeps `a` no later than `b` exactly when the comparator
does not return `Greater`; this boolean order drives the (stable) sort. -/
def file_le (a b : HpssFile) : Bool := cmp_hpss a b != Ordering.gt

/-- The grouping loop of syncer.rs `group_files_by_tape` (lines 247-262)
over the already sorted list: `grouped` and `current` are the `grouped` and
`current_group` accumulators; a file joins the current group when the group
is empty or shares the tape of the group's first file, otherwise the
current group is emitted and a new one starts. -/
def group_loop : List HpssFile → List (List HpssFile) → List HpssFile → List (List HpssFile)
  | [], grouped, current => if current = [] then grouped else grouped ++ [current]
  | f :: rest, grouped, current =>
    match current.head? with
    | none => group_loop rest grouped (current ++ [f])
    | some g =>
      if g.tape = f.tape then group_loop rest grouped (current ++ [f])
      else group_loop rest (grouped ++ [current]) [f]

/-- syncer.rs `group_files_by_tape`: sort by (tape, tape_num, tape_offset,
hpss_path), then partition into contiguous same-tape runs. -/
def group_files_by_tape (hpss_files : List HpssFile) : List (List HpssFile) :=
  group_loop (List.mergeSort hpss_files file_le) [] []

/-- Rust `Path::file_name()` on the paths at hand: the last real component
of the path (ignoring empty components and `.`), none for a path ending in
`..` or having no component. -/
def path_file_name (p : Str) : Option Str :=
  match ((split_on '/' p).filter (fun comp => comp != [] && comp != ['.'])).getLast? with
  | none => none
  | some last => if last = ['.', '.'] then none else some last

/-- syncer.rs `generate_work_units` inner loop body (lines 281-292): each
HpssFile becomes a TaccSyncFile; `path.file_name().expect(...)` panics
(`error`) when the path has no file name. -/
def to_tacc_sync_file (h : HpssFile) : Except String TaccSyncFile :=
  match path_file_name h.hpss_path with
  | none => .error "Unable to get file_name from hpss_path"
  | some name =>
    .ok { file_name := ⟨name⟩, hpss_path := ⟨h.hpss_path⟩, size := h.size,
          tape_num := h.tape_num, tape_offset := h.tape_offset }

/-- The files of one tape group converted in order, propagating a panic. -/
def files_of_group : List HpssFile → Except String (List TaccSyncFile)
  | [] => .ok []
  | h :: rest =>
    match to_tacc_sync_file h with
    | .error e => .error e
    | .ok tf =>
      match files_of_group rest with
      | .error e => .error e
      | .ok tfs => .ok (tf :: tfs)

/-- syncer.rs `generate_work_units` size accumulation: `size += file.size`
over the group. -/
def group_size (g : List HpssFile) : Nat := g.foldl (fun acc f => acc + f.size) 0

/-- syncer.rs `generate_work_units` (lines 268-311) over the tape groups,
starting at group index `i`: `uuid` models the `Uuid::new_v4()` supply and
`now` the `Utc::now()` timestamp.  Indexing `tape_group[0]` on an empty
group would panic; the unit copies the request's `request_id`, uses the
group's first file's tape, sums the sizes, converts the files in order and
leaves `transfer_id` as None. -/
def generate_work_units_from (request_id now : Nat) (uuid : Nat → Nat) :
    Nat → List (List HpssFile) → Except String (List TaccSyncWork)
  | _, [] => .ok []
  | i, g :: gs =>
    match g.head? with
    | none => .error "index out of bounds: tape_group[0]"
    | some g0 =>
      match files_of_group g with
      | .error e => .error e
      | .ok fs =>
        match generate_work_units_from request_id now uuid (i + 1) gs with
        | .error e => .error e
        | .ok us =>
          .ok ({ work_id := uuid i, date_created := now, tape := ⟨g0.tape⟩,
                 size := group_size g, request_id := request_id, files := fs,
                 transfer_id := none } :: us)

/-- syncer.rs `generate_work_units` applied to all tape groups. -/
def generate_work_units (request_id now : Nat) (uuid : Nat → Nat)
    (tape_groups : List (List HpssFile)) : Except String (List TaccSyncWork) :=
  generate_work_units_from request_id now uuid 0 tape_groups

/-- The lexicographic (tape_num, tape_offset, hpss_path) seek order on the
Planner's in-memory file metadata. -/
def seek_le (a b : HpssFile) : Prop :=
  a.tape_num < b.tape_num ∨ (a.tape_num = b.tape_num ∧
    (a.tape_offset < b.tape_offset ∨ (a.tape_offset = b.tape_offset ∧
      a.hpss_path ≤ b.hpss_path)))

/-- The lexicographic (tape_num, tape_offset, hpss_path) seek order on the
persisted WorkFile records. -/
def tacc_seek_le (a b : TaccSyncFile) : Prop :=
  a.tape_num < b.tape_num ∨ (a.tape_num = b.tape_num ∧
    (a.tape_offset < b.tape_offset ∨ (a.tape_offset = b.tape_offset ∧
      a.hpss_path ≤ b.hpss_path)))

/-- The propositional reading of `file_le`: tape first, then seek order. -/
def key_le (a b : HpssFile) : Prop :=
  a.tape < b.tape ∨ (a.tape = b.tape ∧ seek_le a b)

/-- The tape label of each group, read off its first file (the label
`generate_work_units` gives the group's WorkUnit); an empty group reads as
the empty label. -/
def tapes_of_groups (gs : List (List HpssFile)) : List Str :=
  gs.map (fun g => (g.head?.map HpssFile.tape).getD [])

end Syncer

namespace GlobusXfer

/-- GlobusXferContext from globus_xfer.rs: the configuration bundle. -/
structure GlobusXferContext where
  globus_dest_endpoint : String
  globus_source_endpoint : String
  hpss_base_path : String
  inbox_dir : String
  semaphore_dir : String
  tacc_base_path : String
  transfer_dir : String
deriving Repr

/-- The WorkFile record as globus_xfer.rs `process_file` requires it: the
five persisted fields plus the optional `globus_task_id` it reads (line
219) and assigns (line 246).  Note the declaration of `TaccSyncFile` in
src/lib.rs lacks the `globus_task_id` field, so the two disagree. -/
structure XferFile where
  file_name : String
  hpss_path : String
  size : Nat
  tape_num : Nat
  tape_offset : Nat
  globus_task_id : Option Nat
deriving DecidableEq, Repr

/-- The field names of the WorkFile record globus_xfer.rs works with. -/
def globus_work_file_fields : List String :=
  ["file_name", "hpss_path", "size", "tape_num", "tape_offset", "globus_task_id"]

/-- The work unit as the Transferrer handles it (its files carry the
optional task id). -/
structure XferWork where
  work_id : Nat
  date_created : Nat
  tape : String
  size : Nat
  request_id : Nat
  files : List XferFile
  transfer_id : Option Nat
deriving DecidableEq, Repr

/-- GlobusTask from globus_xfer.rs: metadata from `globus task show`. -/
structure GlobusTask where
  task_id : Nat
  status : String
deriving DecidableEq, Repr

/-- TransferResult from globus_xfer.rs: result of `globus transfer`. -/
structure TransferResult where
  data_type : String
  code : String
  message : String
  request_id : String
  resource : String
  submission_id : Nat
  task_id : Nat
deriving DecidableEq, Repr

/-- TransferUpdate from globus_xfer.rs: per-file report of `process_file`. -/
structure TransferUpdate where
  finished : Bool
  updated : Bool
deriving DecidableEq, Repr

/-- The globus CLI invocations the Transferrer can make. -/
inductive GlobusCall where
  | transfer (src_path dst_path : String)
  | task_show (task_id : Nat)
deriving DecidableEq, Repr

/-- Oracle for the globus CLI: the already-JSON-parsed results of
`globus task show` and `globus transfer`; `error` covers process spawn,
non-UTF8 output and serde failures, all propagated with `?` in the
source. -/
structure GlobusEnv where
  task_show : Nat → Except String GlobusTask
  transfer : String → String → Except String TransferResult

/-- A failure inside the Transferrer's per-file processing: `failed` is an
error value returned as `Err` (the unit is quarantined by `main`);
`panicked` is a Rust panic, which aborts the whole process before `main`
can act. -/
inductive XferErr where
  | failed (msg : String)
  | panicked (msg : String)
deriving DecidableEq, Repr

/-- globus_xfer.rs `execute_globus_task_show` (lines 282-308): run
`globus task show`, parse, and sanity-check that the returned task id is
the one asked about.  The second component records the CLI calls made. -/
def execute_globus_task_show (env : GlobusEnv) (globus_task_id : Nat) :
    Except XferErr GlobusTask × List GlobusCall :=
  (match env.task_show globus_task_id with
   | .error e => .error (.failed e)
   | .ok globus =>
     if globus.task_id ≠ globus_task_id then
       .error (.failed "BAD MOJO -- Globus returned information on a different task")
     else .ok globus,
   [GlobusCall.task_show globus_task_id])

/-- Rust byte-range slicing `s[i..]` as used in globus_xfer.rs line 331:
valid (possibly empty) when `i` is at most the length, otherwise the
program panics with an out-of-bounds error. -/
def string_slice_from (s : String) (i : Nat) : Except XferErr String :=
  if i ≤ s.length then .ok ⟨s.data.drop i⟩
  else .error (.panicked "byte index out of bounds of hpss_path")

/-- globus_xfer.rs `execute_globus_transfer` (lines 310-366): if
`hpss_path` does not start with `HPSS_BASE_PATH`, return the BAD MOJO
error; otherwise build the source path under `TRANSFER_DIR/(work_id)/`,
slice `hpss_path[start_index + 1..]` (which panics when the slice start is
past the end of the string), join it onto `TACC_BASE_PATH`, prepend the
endpoint prefixes, invoke `globus transfer`, and require `code ==
"Accepted"`.  The second component records the CLI calls made. -/
def execute_globus_transfer (ctx : GlobusXferContext) (env : GlobusEnv)
    (work_id : Nat) (file : XferFile) :
    Except XferErr TransferResult × List GlobusCall :=
  if ¬ ctx.hpss_base_path.data.isPrefixOf file.hpss_path.data then
    (.error (.failed ("BAD MOJO -- " ++ file.hpss_path ++ " does not start with "
      ++ ctx.hpss_base_path)), [])
  else
    let src_file := ctx.transfer_dir ++ "/" ++ toString work_id ++ "/" ++ file.file_name
    let start_index := ctx.hpss_base_path.length
    match string_slice_from file.hpss_path (start_index + 1) with
    | .error e => (.error e, [])
    | .ok data_warehouse_path =>
      let dst_file := ctx.tacc_base_path ++ "/" ++ data_warehouse_path
      let src_path := ctx.globus_source_endpoint ++ ":" ++ src_file
      let dst_path := ctx.globus_dest_endpoint ++ ":" ++ dst_file
      match env.transfer src_path dst_path with
      | .error e => (.error (.failed e), [GlobusCall.transfer src_path dst_path])
      | .ok globus =>
        if globus.code ≠ "Accepted" then
          (.error (.failed "BAD MOJO -- Globus responded with a code other than Accepted"),
           [GlobusCall.transfer src_path dst_path])
        else (.ok globus, [GlobusCall.transfer src_path dst_path])

/-- globus_xfer.rs `process_file` (lines 204-253): a file with a task id
gets a status check (ACTIVE/INACTIVE wait, SUCCEEDED finishes, anything
else fails the unit); a file without one gets a new transfer submitted and
the returned `task_id` stamped into it, marking the unit updated. -/
def process_file (ctx : GlobusXferContext) (env : GlobusEnv) (work_id : Nat)
    (file : XferFile) :
    Except XferErr (TransferUpdate × XferFile) × List GlobusCall :=
  match file.globus_task_id with
  | some gid =>
    match execute_globus_task_show env gid with
    | (.error e, calls) => (.error e, calls)
    | (.ok globus, calls) =>
      if globus.status = "ACTIVE" ∨ globus.status = "INACTIVE" then
        (.ok ({ finished := false, updated := false }, file), calls)
      else if globus.status = "SUCCEEDED" then
        (.ok ({ finished := true, updated := false }, file), calls)
      else
        (.error (.failed "Quarantine due to failed Globus transfer."), calls)
  | none =>
    match execute_globus_transfer ctx env work_id file with
    | (.error e, calls) => (.error e, calls)
    | (.ok globus, calls) =>
      (.ok ({ finished := false, updated := true },
            { file with globus_task_id := some globus.task_id }), calls)

/-- Accumulated state of the per-file loop in globus_xfer.rs `process_work`
(lines 172-183): the possibly-failed status, the files with their in-place
updates, the finished and updated counters, and the CLI calls made. -/
structure FilesResult where
  err : Option XferErr
  files : List XferFile
  finished : Nat
  updated : Nat
  calls : List GlobusCall
deriving Repr

/-- The per-file loop of globus_xfer.rs `process_work`: files are processed
in order; the first failure is propagated by `?` and stops the loop. -/
def process_files (ctx : GlobusXferContext) (env : GlobusEnv) (work_id : Nat) :
    List XferFile → FilesResult
  | [] => { err := none, files := [], finished := 0, updated := 0, calls := [] }
  | f :: rest =>
    match process_file ctx env work_id f with
    | (.error e, calls) =>
      { err := some e, files := f :: rest, finished := 0, updated := 0, calls := calls }
    | (.ok (u, f'), calls) =>
      let r := process_files ctx env work_id rest
      { err := r.err, files := f' :: r.files,
        finished := (if u.finished then 1 else 0) + r.finished,
        updated := (if u.updated then 1 else 0) + r.updated,
        calls := calls ++ r.calls }

/-- Filesystem operations of the Transferrer's in-place rewrite (file
contents are modelled as the work-unit value written). -/
inductive FsOp where
  | rename (src dst : String)
  | create_write (path : String) (content : XferWork)
  | remove_file (path : String)
deriving DecidableEq, Repr

/-- Whether a filesystem operation is a `fs::remove_file` call. -/
def fs_op_is_remove : FsOp → Bool
  | .remove_file _ => true
  | _ => false

/-- The canonical inbox path of a work unit: `(inbox)/(work_id).json`. -/
def work_unit_path (inbox_dir : String) (work : XferWork) : String :=
  inbox_dir ++ "/" ++ toString work.work_id ++ ".json"

/-- The safety-copy path: `(canonical path).safety`. -/
def safety_copy_path (inbox_dir : String) (work : XferWork) : String :=
  work_unit_path inbox_dir work ++ ".safety"

/-- globus_xfer.rs `rewrite_work_unit` (lines 255-280): rename the
canonical file to the `.safety` copy, then create and write the new JSON at
the canonical path.  The final `fs::remove_file(safety_copy_path)` call is
present in the source but commented out (line 276), so no remove operation
is issued. -/
def rewrite_work_unit (work : XferWork) (inbox_dir : String) : List FsOp :=
  [FsOp.rename (work_unit_path inbox_dir work) (safety_copy_path inbox_dir work),
   FsOp.create_write (work_unit_path inbox_dir work) work]

/-- The Transferrer-inbox directory contents: path-to-contents pairs. -/
abbrev Fs := List (String × XferWork)

/-- Look a path up in the directory model. -/
def fs_find (fs : Fs) (path : String) : Option XferWork :=
  match fs with
  | [] => none
  | (p, w) :: rest => if p = path then some w else fs_find rest path

/-- Remove a path from the directory model. -/
def fs_erase (fs : Fs) (path : String) : Fs :=
  match fs with
  | [] => []
  | (p, w) :: rest =>
    if p = path then fs_erase rest path else (p, w) :: fs_erase rest path

/-- Apply one filesystem operation; `none` is an I/O error (`fs::rename` or
`fs::remove_file` on a missing source), which `rewrite_work_unit`
propagates with `?`. -/
def run_fs_op (fs : Fs) : FsOp → Option Fs
  | .rename src dst =>
    match fs_find fs src with
    | none => none
    | some w => some ((dst, w) :: fs_erase fs src)
  | .create_write path w => some ((path, w) :: fs_erase fs path)
  | .remove_file path =>
    match fs_find fs path with
    | none => none
    | some _ => some (fs_erase fs path)

/-- Apply a sequence of filesystem operations, stopping at the first
error. -/
def run_fs_ops (fs : Fs) : List FsOp → Option Fs
  | [] => some fs
  | op :: ops =>
    match run_fs_op fs op with
    | none => none
    | some fs' => run_fs_ops fs' ops

/-- The overall outcome of globus_xfer.rs `process_work` on one unit. -/
structure ProcessOutcome where
  result : Except XferErr Bool
  calls : List GlobusCall
  rewrote : Bool
  fs_ops : List FsOp
  work : XferWork
deriving Repr

/-- globus_xfer.rs `process_work` (lines 158-202): process every file,
counting finished and updated ones; if any file was updated, rewrite the
unit JSON in place; return Ok true exactly when the finished count reaches
the number of files. -/
def process_work (ctx : GlobusXferContext) (env : GlobusEnv) (work : XferWork) :
    ProcessOutcome :=
  let r := process_files ctx env work.work_id work.files
  match r.err with
  | some e =>
    { result := .error e, calls := r.calls, rewrote := false, fs_ops := [],
      work := work }
  | none =>
    let work' := { work with files := r.files }
    { result := if work.files.length ≤ r.finished then .ok true else .ok false,
      calls := r.calls, rewrote := 0 < r.updated,
      fs_ops := if 0 < r.updated then rewrite_work_unit work' ctx.inbox_dir else [],
      work := work' }

/-- What globus_xfer.rs `main` (lines 124-144) does with the unit's JSON
file after `process_work`: Err quarantines it, Ok true forwards it to the
outbox (the Reaper's inbox), Ok false leaves it for the next cycle; a
panic aborts the process with the file still in place. -/
inductive Disposition where
  | to_outbox
  | left_in_place
  | quarantined
  | aborted
deriving DecidableEq, Repr

/-- The dispatch in globus_xfer.rs `main` on the `process_work` result. -/
def disposition : Except XferErr Bool → Disposition
  | .error (.panicked _) => .aborted
  | .error (.failed _) => .quarantined
  | .ok true => .to_outbox
  | .ok false => .left_in_place

end GlobusXfer

/-- Whether an `Except` computation ended in the error (panic) case. -/
def except_is_error {ε α : Type} : Except ε α → Bool
  | .error _ => true
  | .ok _ => false

namespace Syncer

/-- Three files on two tapes, listed in sorted order, exercising the
Planner's grouping concretely (spec §8, multi-tape fan-out). -/
def demo_hpss_files : List HpssFile :=
  [{ hpss_path := "/exp/2009/a.zip".data, size := 10, tape := "AG084600".data,
     tape_num := 5, tape_offset := 0 },
   { hpss_path := "/exp/2009/b.zip".data, size := 20, tape := "AG084600".data,
     tape_num := 5, tape_offset := 3 },
   { hpss_path := "/exp/2011/c.zip".data, size := 40, tape := "AU031800".data,
     tape_num := 2, tape_offset := 7 }]

/-- A FILE metadata line with only 3 tab-separated fields instead of 13. -/
def demo_short_file_line : Str := "FILE\t/exp/2009/a.zip\t100".data

/-- A metadata batch containing a command echo and the short FILE line. -/
def demo_bad_metadata : List Str :=
  ["ls -NP /exp/2009/a.zip".data, demo_short_file_line]

/-- The work units the Planner emits for `demo_hpss_files` with request id
11, timestamp 5 and the fresh-id supply 100, 101, ... -/
def demo_units : List TaccSyncWork :=
  [{ work_id := 100, date_created := 5, tape := "AG084600", size := 30,
     request_id := 11,
     files := [{ file_name := "a.zip", hpss_path := "/exp/2009/a.zip",
                 size := 10, tape_num := 5, tape_offset := 0 },
               { file_name := "b.zip", hpss_path := "/exp/2009/b.zip",
                 size := 20, tape_num := 5, tape_offset := 3 }],
     transfer_id := none },
   { work_id := 101, date_created := 5, tape := "AU031800", size := 40,
     request_id := 11,
     files := [{ file_name := "c.zip", hpss_path := "/exp/2011/c.zip",
                 size := 40, tape_num := 2, tape_offset := 7 }],
     transfer_id := none }]

end Syncer

namespace GlobusXfer

/-- A concrete Transferrer configuration. -/
def demo_ctx : GlobusXferContext :=
  { globus_dest_endpoint := "dest-ep", globus_source_endpoint := "src-ep",
    hpss_base_path := "/home/projects/icecube", inbox_dir := "inbox",
    semaphore_dir := "sem", tacc_base_path := "/tacc", transfer_dir := "transfer" }

/-- A globus CLI oracle that fails every invocation (no call should be made
in the scenarios using it). -/
def demo_env : GlobusEnv :=
  { task_show := fun _ => .error "globus unavailable",
    transfer := fun _ _ => .error "globus unavailable" }

/-- A work unit whose files list is empty. -/
def demo_empty_work : XferWork :=
  { work_id := 9, date_created := 0, tape := "AG084600", size := 0,
    request_id := 4, files := [], transfer_id := none }

/-- A WorkFile whose `hpss_path` equals `HPSS_BASE_PATH` exactly. -/
def demo_base_file : XferFile :=
  { file_name := "icecube", hpss_path := "/home/projects/icecube", size := 1,
    tape_num := 0, tape_offset := 0, globus_task_id := none }

/-- A work unit as it sits in the Transferrer inbox before a rewrite. -/
def demo_inbox_work : XferWork :=
  { work_id := 7, date_created := 0, tape := "AG084600", size := 10,
    request_id := 4,
    files := [{ file_name := "a.zip", hpss_path := "/home/projects/icecube/a.zip",
                size := 10, tape_num := 5, tape_offset := 0,
                globus_task_id := none }],
    transfer_id := none }

/-- The same unit with the task id stamped, as rewritten in place. -/
def demo_inbox_work_updated : XferWork :=
  { demo_inbox_work with
    files := [{ file_name := "a.zip", hpss_path := "/home/projects/icecube/a.zip",
                size := 10, tape_num := 5, tape_offset := 0,
                globus_task_id := some 42 }] }

/-- The Transferrer inbox holding exactly the canonical JSON of
`demo_inbox_work`. -/
def demo_fs : Fs := [(work_unit_path "inbox" demo_inbox_work, demo_inbox_work)]

end GlobusXfer

/-!
Theorems.  Helper lemmas come first inside each namespace, then the
claim-level theorems and their witnesses.
-/

namespace Finisher

theorem scan_work_files_eq_forwarded_iff (rid : Nat) :
    ∀ l : List (LoadOutcome TaccSyncWork),
      scan_work_files rid l = .forwarded ↔
        ∀ r ∈ l, ∃ w, r = .ok w ∧ w.request_id ≠ rid
  | [] => by simp [scan_work_files]
  | .ok w :: rest => by
    by_cases h : w.request_id = rid
    · simp [scan_work_files, h]
    · simpa [scan_work_files, h] using scan_work_files_eq_forwarded_iff rid rest
  | .err :: rest => by simp [scan_work_files]
  | .panicked :: rest => by simp [scan_work_files]

/-- Claim C1: for every SyncRequest the Finisher examines in a cycle, the
request file is forwarded to the finished outbox if and only if every `.json`
file in the three scanned directories (HPSS_DIR, GLOBUS_DIR, REAPER_DIR)
loads successfully as a WorkUnit and none of the loaded WorkUnits has a
`request_id` equal to the request's `request_id`; in every other case the
request file is not moved out of the Finisher's inbox. -/
theorem finisher_retires_iff_no_matching_loadable_work
    (rid : Nat) (hpss_dir globus_dir reaper_dir : List (LoadOutcome TaccSyncWork)) :
    process_sync_request rid hpss_dir globus_dir reaper_dir = .forwarded ↔
      ∀ r ∈ hpss_dir ++ globus_dir ++ reaper_dir,
        ∃ w, r = LoadOutcome.ok w ∧ w.request_id ≠ rid :=
  scan_work_files_eq_forwarded_iff rid (hpss_dir ++ globus_dir ++ reaper_dir)

/-- Claim C2 (code bug evidence): finisher.rs means to tolerate a work file
vanishing mid-scan, but lib.rs `load_work_from_file` opens and reads the
file with `.expect(...)`, which panics on an open/read I/O error.  At such
a file the Finisher process aborts rather than deferring to the next
cycle; only a serde parse failure (the `err` case) takes the documented
log-and-retry path that leaves the request in place without aborting. -/
theorem finisher_aborts_on_vanished_work_file :
    load_work_from_file none (fun _ => none) = .panicked
    ∧ process_sync_request 1 [LoadOutcome.panicked] [] [] = .aborted
    ∧ process_sync_request 1 [LoadOutcome.err] [] [] = .leftInPlace :=
  ⟨rfl, rfl, rfl⟩

end Finisher

namespace Retriever

theorem retriever_cycle_length (quota : Nat) (td : String) :
    ∀ (measures : List Nat) (entries : List REntry),
      (retriever_cycle quota td measures entries).length = entries.length
  | _, [] => rfl
  | measures, .unloadable :: rest => by
    simpa [retriever_cycle] using retriever_cycle_length quota td measures rest
  | measures, .loadable work e :: rest => by
    by_cases h : quota < measures.headD 0 + work.size
    · simp only [retriever_cycle, if_pos h, List.length_cons, List.length_map]
    · simp only [retriever_cycle, if_neg h, List.length_cons]
      exact congrArg (· + 1) (retriever_cycle_length quota td measures.tail rest)

/-- Claim C5: if the Retriever's work loop reaches position `i` of the
cycle's pending list, finds a loadable WorkUnit there, and the measured
recursive size of TRANSFER_DIR plus that unit's size exceeds
TRANSFER_QUOTA, then the whole cycle stops at that point: the unit at
position `i` and every later entry of the list is left untouched. -/
theorem retriever_quota_break_stops_cycle (quota : Nat) (td : String) :
    ∀ (entries : List REntry) (measures : List Nat) (i : Nat)
      (work : TaccSyncWork) (e m : Nat),
      entries[i]? = some (.loadable work e) →
      reach_measure quota measures entries i = some m →
      quota < m + work.size →
      ∀ j, i ≤ j → j < entries.length →
        (retriever_cycle quota td measures entries)[j]? = some .untouched := by
  intro entries
  induction entries with
  | nil =>
    intro measures i work e m hent
    simp at hent
  | cons head rest ih =>
    intro measures i work e m hent hreach hover j hij hj
    cases i with
    | zero =>
      cases head with
      | unloadable => simp at hent
      | loadable w' e' =>
        rw [List.getElem?_cons_zero, Option.some_inj] at hent
        cases hent
        simp only [reach_measure, Option.some_inj] at hreach
        have hcond : quota < measures.headD 0 + work.size := by
          rw [hreach]; exact hover
        simp only [retriever_cycle, if_pos hcond]
        cases j with
        | zero => rw [List.getElem?_cons_zero]
        | succ j' =>
          rw [List.getElem?_cons_succ, List.getElem?_map]
          have hj' : j' < rest.length := by
            simpa [Nat.succ_lt_succ_iff] using hj
          rw [List.getElem?_eq_getElem hj']
          rfl
    | succ i' =>
      have hij' : 1 ≤ j := Nat.le_trans (Nat.succ_le_succ (Nat.zero_le _)) hij
      obtain ⟨j', rfl⟩ : ∃ j'', j = j'' + 1 :=
        ⟨j - 1, by omega⟩
      cases head with
      | unloadable =>
        rw [List.getElem?_cons_succ] at hent
        simp only [reach_measure] at hreach
        simp only [retriever_cycle, List.getElem?_cons_succ]
        exact ih measures i' work e m hent hreach hover j'
          (Nat.le_of_succ_le_succ hij) (by simpa [Nat.succ_lt_succ_iff] using hj)
      | loadable w' e' =>
        rw [List.getElem?_cons_succ] at hent
        simp only [reach_measure] at hreach
        by_cases hcond : quota < measures.headD 0 + w'.size
        · rw [if_pos hcond] at hreach
          exact absurd hreach (by simp)
        · rw [if_neg hcond] at hreach
          simp only [retriever_cycle, if_neg hcond, List.getElem?_cons_succ]
          exact ih measures.tail i' work e m hent hreach hover j'
            (Nat.le_of_succ_le_succ hij) (by simpa [Nat.succ_lt_succ_iff] using hj)

/-- Witness for C5: with quota 100, 80 bytes already staged, and two
pending 50-byte units, the loop breaks at position 0 and the unit at
position 1 is also untouched. -/
theorem retriever_quota_break_stops_cycle_witness :
    ([REntry.loadable demo_unit_50 0, REntry.loadable demo_unit_50 0][0]?
        = some (REntry.loadable demo_unit_50 0))
    ∧ reach_measure 100 [80]
        [REntry.loadable demo_unit_50 0, REntry.loadable demo_unit_50 0] 0 = some 80
    ∧ 100 < 80 + demo_unit_50.size
    ∧ (retriever_cycle 100 "transfer" [80]
        [REntry.loadable demo_unit_50 0, REntry.loadable demo_unit_50 0])[1]?
        = some ROutcome.untouched :=
  ⟨by decide, by decide, by decide,
    retriever_quota_break_stops_cycle 100 "transfer"
      [REntry.loadable demo_unit_50 0, REntry.loadable demo_unit_50 0]
      [80] 0 demo_unit_50 0 80 (by decide) (by decide) (by decide)
      1 (by decide) (by decide)⟩

/-- Claim C6 (code bug evidence): retriever.rs `process_work` ignores the
hsi batch copy's outcome entirely (the captured output is only
debug-logged) and reports success for every work unit and every exit code,
so the quarantine-on-processing-failure branch of `main` (line 70) can
never run for a loadable unit. -/
theorem retriever_process_work_always_reports_success
    (transfer_dir : String) (work : TaccSyncWork) (hsi_exit_code : Nat) :
    (process_work transfer_dir work hsi_exit_code).2 = true :=
  rfl

end Retriever

namespace GlobusXfer

theorem work_unit_path_ne_safety (inbox_dir : String) (work : XferWork) :
    work_unit_path inbox_dir work ≠ safety_copy_path inbox_dir work := by
  intro hEq
  have hlen : (work_unit_path inbox_dir work).data.length
      = (safety_copy_path inbox_dir work).data.length := by rw [hEq]
  rw [safety_copy_path] at hlen
  rw [show (work_unit_path inbox_dir work ++ ".safety").data
      = (work_unit_path inbox_dir work).data ++ (".safety" : String).data from rfl,
    List.length_append] at hlen
  have h7 : (".safety" : String).data.length = 7 := rfl
  rw [h7] at hlen
  omega

/-- Claim C10: for a WorkFile whose `hpss_path` is exactly equal to
`HPSS_BASE_PATH`, the destination-path computation of
`execute_globus_transfer` passes the prefix check, but the byte-range
slice `hpss_path[len(HPSS_BASE_PATH) + 1 ..]` starts past the end of the
string, so the function panics instead of returning the error result used
for prefix violations (whose guarded branch covers only the not-a-prefix
case). -/
theorem transfer_panics_when_path_equals_base
    (ctx : GlobusXferContext) (env : GlobusEnv) (work_id : Nat) (file : XferFile)
    (h : file.hpss_path = ctx.hpss_base_path) :
    (execute_globus_transfer ctx env work_id file).1
      = .error (.panicked "byte index out of bounds of hpss_path") := by
  have hpre : ctx.hpss_base_path.data.isPrefixOf file.hpss_path.data = true := by
    rw [h]; simp
  have hslice : string_slice_from file.hpss_path (ctx.hpss_base_path.length + 1)
      = .error (.panicked "byte index out of bounds of hpss_path") := by
    rw [string_slice_from, if_neg]
    rw [h]
    omega
  rw [execute_globus_transfer,
    if_neg (show ¬ ¬ (ctx.hpss_base_path.data.isPrefixOf file.hpss_path.data = true) by
      simp [hpre])]
  simp only [hslice]

/-- Witness for C10: the concrete context and file with
`hpss_path = HPSS_BASE_PATH = "/home/projects/icecube"` lead to the
panic result. -/
theorem transfer_panics_when_path_equals_base_witness :
    demo_base_file.hpss_path = demo_ctx.hpss_base_path
    ∧ (execute_globus_transfer demo_ctx demo_env 9 demo_base_file).1
        = .error (.panicked "byte index out of bounds of hpss_path") :=
  ⟨rfl, transfer_panics_when_path_equals_base demo_ctx demo_env 9 demo_base_file rfl⟩

/-- Claim C9: a WorkUnit with an empty files list completes on its first
Transferrer cycle: no transfer-submission or status-check command is
invoked, no in-place rewrite happens, and the unit is forwarded to the
outbox, because the finished count 0 is not less than the file count 0. -/
theorem transferrer_completes_empty_unit
    (ctx : GlobusXferContext) (env : GlobusEnv) (work : XferWork)
    (h : work.files = []) :
    (process_work ctx env work).result = .ok true
    ∧ (process_work ctx env work).calls = []
    ∧ (process_work ctx env work).rewrote = false
    ∧ (process_work ctx env work).fs_ops = []
    ∧ disposition (process_work ctx env work).result = .to_outbox := by
  cases work with
  | mk wid dc tape sz rid files tid =>
    simp only at h
    cases h
    exact ⟨rfl, rfl, rfl, rfl, rfl⟩

/-- Witness for C9: the concrete empty unit is completed and forwarded on
its first cycle. -/
theorem transferrer_completes_empty_unit_witness :
    demo_empty_work.files = []
    ∧ (process_work demo_ctx demo_env demo_empty_work).result = .ok true
    ∧ (process_work demo_ctx demo_env demo_empty_work).calls = []
    ∧ disposition (process_work demo_ctx demo_env demo_empty_work).result
        = .to_outbox :=
  ⟨rfl,
    (transferrer_completes_empty_unit demo_ctx demo_env demo_empty_work rfl).1,
    (transferrer_completes_empty_unit demo_ctx demo_env demo_empty_work rfl).2.1,
    (transferrer_completes_empty_unit demo_ctx demo_env demo_empty_work rfl).2.2.2.2⟩

/-- Claim C7 counterexample: a successful in-place rewrite of a concrete
updated work unit leaves the `.safety` copy in the inbox (the removal step
is commented out in the source), so it is false that no `.safety` file
remains after a successful rewrite. -/
theorem rewrite_leaves_safety_copy_counterexample :
    run_fs_ops demo_fs (rewrite_work_unit demo_inbox_work_updated "inbox")
      = some [(work_unit_path "inbox" demo_inbox_work_updated, demo_inbox_work_updated),
              (safety_copy_path "inbox" demo_inbox_work_updated, demo_inbox_work)]
    ∧ fs_find [(work_unit_path "inbox" demo_inbox_work_updated, demo_inbox_work_updated),
               (safety_copy_path "inbox" demo_inbox_work_updated, demo_inbox_work)]
        (safety_copy_path "inbox" demo_inbox_work_updated) = some demo_inbox_work
    ∧ (rewrite_work_unit demo_inbox_work_updated "inbox").all
        (fun op => !fs_op_is_remove op) = true := by
  refine ⟨by decide, by decide, by decide⟩

/-- Claim C7 amended: when at least one WorkFile was newly stamped this
cycle, the Transferrer rewrites the unit's JSON by renaming the current
file to `(path).safety` and writing the new file at `(path)`; the removal
of the `.safety` copy is disabled in the source, so a successful rewrite
issues no remove operation and leaves the `.safety` copy (holding the
pre-rewrite contents) alongside the new canonical file. -/
theorem rewrite_work_unit_leaves_safety_copy
    (work : XferWork) (inbox_dir : String) (fs fs' : Fs)
    (h : run_fs_ops fs (rewrite_work_unit work inbox_dir) = some fs') :
    ∃ w_old,
      fs_find fs (work_unit_path inbox_dir work) = some w_old
      ∧ fs_find fs' (safety_copy_path inbox_dir work) = some w_old
      ∧ fs_find fs' (work_unit_path inbox_dir work) = some work
      ∧ (rewrite_work_unit work inbox_dir).all (fun op => !fs_op_is_remove op) = true := by
  rw [rewrite_work_unit] at h
  cases hfind : fs_find fs (work_unit_path inbox_dir work) with
  | none =>
    simp only [run_fs_ops, run_fs_op, hfind] at h
    exact Option.noConfusion h
  | some w_old =>
    simp only [run_fs_ops, run_fs_op, hfind, Option.some_inj] at h
    subst h
    have hne := work_unit_path_ne_safety inbox_dir work
    refine ⟨w_old, rfl, ?_, ?_, rfl⟩
    · simp [fs_find, fs_erase, hne, Ne.symm hne]
    · simp [fs_find]

/-- Witness for the amended C7: running the rewrite of the concrete updated
unit against the concrete inbox succeeds, and the safety copy holding the
old contents remains next to the new canonical file. -/
theorem rewrite_work_unit_leaves_safety_copy_witness :
    run_fs_ops demo_fs (rewrite_work_unit demo_inbox_work_updated "inbox")
      = some [(work_unit_path "inbox" demo_inbox_work_updated, demo_inbox_work_updated),
              (safety_copy_path "inbox" demo_inbox_work_updated, demo_inbox_work)]
    ∧ ∃ w_old,
        fs_find demo_fs (work_unit_path "inbox" demo_inbox_work_updated) = some w_old
        ∧ fs_find [(work_unit_path "inbox" demo_inbox_work_updated, demo_inbox_work_updated),
                   (safety_copy_path "inbox" demo_inbox_work_updated, demo_inbox_work)]
            (safety_copy_path "inbox" demo_inbox_work_updated) = some w_old
        ∧ fs_find [(work_unit_path "inbox" demo_inbox_work_updated, demo_inbox_work_updated),
                   (safety_copy_path "inbox" demo_inbox_work_updated, demo_inbox_work)]
            (work_unit_path "inbox" demo_inbox_work_updated) = some demo_inbox_work_updated
        ∧ (rewrite_work_unit demo_inbox_work_updated "inbox").all
            (fun op => !fs_op_is_remove op) = true :=
  ⟨by decide,
    rewrite_work_unit_leaves_safety_copy demo_inbox_work_updated "inbox" demo_fs _
      (by decide)⟩

/-- Claim C8 (code bug evidence): the WorkFile record persisted by lib.rs
has no `globus_task_id` field, while the record globus_xfer.rs
`process_file` reads and assigns does carry it; the two declarations of
the same persisted entity disagree. -/
theorem persisted_work_file_lacks_globus_task_id_field :
    "globus_task_id" ∉ tacc_sync_file_fields
    ∧ "globus_task_id" ∈ globus_work_file_fields :=
  ⟨by decide, by decide⟩

end GlobusXfer

namespace Syncer

/-- Claim C4 counterexample: on a concrete metadata batch holding a FILE
line with 3 tab-separated fields instead of 13, the Planner panics (the
BAD MOJO branch of `parse_tape_metadata`) and the process terminates; the
line is not dropped and the remaining lines are not processed. -/
theorem short_file_line_panics_counterexample :
    parse_tape_metadata demo_bad_metadata
      = .error "BAD MOJO - hsi metadata parse error: NUM_HSI_METADATA_FIELDS"
    ∧ except_is_error (parse_tape_metadata demo_bad_metadata) = true :=
  ⟨rfl, rfl⟩

/-- Claim C4 amended: for every metadata line beginning with the token FILE
whose tab-separated field count differs from 13, the Planner logs the line
and panics, so a metadata batch containing such a line never returns
normally (the process terminates instead of continuing with the remaining
lines). -/
theorem file_line_bad_field_count_aborts
    (lines : List Str) (line : Str)
    (hmem : line ∈ lines)
    (hfile : (split_on '\t' line).headD [] = ['F', 'I', 'L', 'E'])
    (hcount : (split_on '\t' line).length ≠ NUM_HSI_METADATA_FIELDS) :
    except_is_error (parse_tape_metadata lines) = true := by
  induction lines with
  | nil => cases hmem
  | cons l rest ih =>
    rcases List.mem_cons.mp hmem with heq | hl
    · have hbad : parse_metadata_line l
          = .error "BAD MOJO - hsi metadata parse error: NUM_HSI_METADATA_FIELDS" := by
        rw [← heq, parse_metadata_line]
        rw [if_neg (show ¬ ((split_on '\t' line).headD [] ≠ ['F', 'I', 'L', 'E']) from
          fun hne => hne hfile)]
        rw [if_pos hcount]
      simp only [parse_tape_metadata, hbad]
      rfl
    · have hrest := ih hl
      cases hpl : parse_metadata_line l with
      | error e =>
        simp only [parse_tape_metadata, hpl]
        rfl
      | ok o =>
        cases o with
        | none =>
          simp only [parse_tape_metadata, hpl]
          exact hrest
        | some f =>
          simp only [parse_tape_metadata, hpl]
          cases hpr : parse_tape_metadata rest with
          | error e => rfl
          | ok fs =>
            rw [hpr] at hrest
            exact absurd hrest (by simp [except_is_error])

/-- Witness for the amended C4: the short FILE line sits in the concrete
batch, starts with FILE, has 3 fields, and the whole batch parse panics. -/
theorem file_line_bad_field_count_aborts_witness :
    demo_short_file_line ∈ demo_bad_metadata
    ∧ (split_on '\t' demo_short_file_line).headD [] = ['F', 'I', 'L', 'E']
    ∧ (split_on '\t' demo_short_file_line).length ≠ NUM_HSI_METADATA_FIELDS
    ∧ except_is_error (parse_tape_metadata demo_bad_metadata) = true :=
  ⟨by decide, by decide, by decide,
    file_line_bad_field_count_aborts demo_bad_metadata demo_short_file_line
      (by decide) (by decide) (by decide)⟩

end Syncer

namespace Syncer

theorem cmp_key_eq_lt {α : Type} [LinearOrder α] {a b : α} :
    cmp_key a b = Ordering.lt ↔ a < b := by
  unfold cmp_key
  split_ifs with h1 h2 <;> simp_all

theorem cmp_key_eq_eq {α : Type} [LinearOrder α] {a b : α} :
    cmp_key a b = Ordering.eq ↔ a = b := by
  unfold cmp_key
  split_ifs with h1 h2 <;> simp_all
  exact ne_of_lt h1

theorem cmp_key_ne_gt {α : Type} [LinearOrder α] {a b : α} :
    cmp_key a b ≠ Ordering.gt ↔ a ≤ b := by
  unfold cmp_key
  split_ifs with h1 h2
  · simp [le_of_lt h1]
  · simp [h2]
  · have hba : b < a :=
      lt_of_le_of_ne (le_of_not_lt h1) (fun hba => h2 hba.symm)
    simp [not_le.mpr hba]

theorem ordering_then_ne_gt {o₁ o₂ : Ordering} :
    o₁.then o₂ ≠ Ordering.gt ↔ (o₁ = .lt ∨ (o₁ = .eq ∧ o₂ ≠ .gt)) := by
  cases o₁ <;> simp [Ordering.then]

theorem ordering_bne_gt {o : Ordering} : (o != Ordering.gt) = true ↔ o ≠ Ordering.gt := by
  cases o <;> decide

theorem file_le_iff {a b : HpssFile} : file_le a b = true ↔ key_le a b := by
  unfold file_le cmp_hpss
  rw [ordering_bne_gt]
  rw [ordering_then_ne_gt, ordering_then_ne_gt, ordering_then_ne_gt]
  rw [cmp_key_eq_lt, cmp_key_eq_eq, cmp_key_eq_lt, cmp_key_eq_eq,
    cmp_key_eq_lt, cmp_key_eq_eq, cmp_key_ne_gt]
  unfold key_le seek_le
  exact Iff.rfl

theorem seek_le_trans {a b c : HpssFile}
    (h1 : seek_le a b) (h2 : seek_le b c) : seek_le a c := by
  unfold seek_le at h1 h2 ⊢
  rcases h1 with h1 | ⟨he1, h1⟩
  · rcases h2 with h2 | ⟨he2, h2⟩
    · exact Or.inl (lt_trans h1 h2)
    · exact Or.inl (he2 ▸ h1)
  · rcases h2 with h2 | ⟨he2, h2⟩
    · exact Or.inl (he1 ▸ h2)
    · refine Or.inr ⟨he1.trans he2, ?_⟩
      rcases h1 with h1 | ⟨hf1, h1⟩
      · rcases h2 with h2 | ⟨hf2, h2⟩
        · exact Or.inl (lt_trans h1 h2)
        · exact Or.inl (hf2 ▸ h1)
      · rcases h2 with h2 | ⟨hf2, h2⟩
        · exact Or.inl (hf1 ▸ h2)
        · exact Or.inr ⟨hf1.trans hf2, le_trans h1 h2⟩

theorem key_le_trans (a b c : HpssFile)
    (h1 : key_le a b) (h2 : key_le b c) : key_le a c := by
  unfold key_le at h1 h2 ⊢
  rcases h1 with h1 | ⟨he1, h1⟩
  · rcases h2 with h2 | ⟨he2, h2⟩
    · exact Or.inl (lt_trans h1 h2)
    · exact Or.inl (he2 ▸ h1)
  · rcases h2 with h2 | ⟨he2, h2⟩
    · exact Or.inl (he1 ▸ h2)
    · exact Or.inr ⟨he1.trans he2, seek_le_trans h1 h2⟩

theorem seek_le_total (a b : HpssFile) : seek_le a b ∨ seek_le b a := by
  unfold seek_le
  rcases lt_trichotomy a.tape_num b.tape_num with h | h | h
  · exact Or.inl (Or.inl h)
  · rcases lt_trichotomy a.tape_offset b.tape_offset with h' | h' | h'
    · exact Or.inl (Or.inr ⟨h, Or.inl h'⟩)
    · rcases le_total a.hpss_path b.hpss_path with h'' | h''
      · exact Or.inl (Or.inr ⟨h, Or.inr ⟨h', h''⟩⟩)
      · exact Or.inr (Or.inr ⟨h.symm, Or.inr ⟨h'.symm, h''⟩⟩)
    · exact Or.inr (Or.inr ⟨h.symm, Or.inl h'⟩)
  · exact Or.inr (Or.inl h)

theorem key_le_total (a b : HpssFile) : key_le a b ∨ key_le b a := by
  unfold key_le
  rcases lt_trichotomy a.tape b.tape with h | h | h
  · exact Or.inl (Or.inl h)
  · rcases seek_le_total a b with h' | h'
    · exact Or.inl (Or.inr ⟨h, h'⟩)
    · exact Or.inr (Or.inr ⟨h.symm, h'⟩)
  · exact Or.inr (Or.inl h)

theorem file_le_trans (a b c : HpssFile) :
    file_le a b → file_le b c → file_le a c := fun h1 h2 =>
  file_le_iff.mpr (key_le_trans a b c (file_le_iff.mp h1) (file_le_iff.mp h2))

theorem file_le_total (a b : HpssFile) : file_le a b || file_le b a := by
  rcases key_le_total a b with h | h
  · simp [file_le_iff.mpr h]
  · simp [file_le_iff.mpr h]

theorem sorted_planner_files (l : List HpssFile) :
    (List.mergeSort l file_le).Pairwise (fun a b => file_le a b = true) :=
  List.sorted_mergeSort file_le_trans file_le_total l

end Syncer

namespace Syncer

theorem group_loop_append :
    ∀ (l : List HpssFile) (grouped : List (List HpssFile)) (current : List HpssFile),
      group_loop l grouped current = grouped ++ group_loop l [] current
  | [], grouped, current => by
    by_cases h : current = [] <;> simp [group_loop, h]
  | f :: rest, grouped, current => by
    cases current with
    | nil =>
      simp only [group_loop, List.head?, List.nil_append]
      exact group_loop_append rest grouped [f]
    | cons g cur' =>
      simp only [group_loop, List.head?, List.nil_append]
      by_cases h : g.tape = f.tape
      · rw [if_pos h, if_pos h]
        exact group_loop_append rest grouped (g :: cur' ++ [f])
      · rw [if_neg h, if_neg h]
        rw [group_loop_append rest (grouped ++ [g :: cur']) [f],
          group_loop_append rest [g :: cur'] [f], List.append_assoc]

theorem group_loop_flatten :
    ∀ (l current : List HpssFile),
      (group_loop l [] current).flatten = current ++ l
  | [], current => by
    by_cases h : current = [] <;> simp [group_loop, h]
  | f :: rest, current => by
    cases current with
    | nil =>
      simp only [group_loop, List.head?, List.nil_append]
      simpa using group_loop_flatten rest [f]
    | cons g cur' =>
      simp only [group_loop, List.head?, List.nil_append]
      by_cases h : g.tape = f.tape
      · rw [if_pos h]
        rw [group_loop_flatten rest (g :: cur' ++ [f])]
        simp
      · rw [if_neg h]
        rw [group_loop_append rest [g :: cur'] [f]]
        rw [List.flatten_append]
        rw [group_loop_flatten rest [f]]
        simp

theorem group_loop_good :
    ∀ (l current : List HpssFile),
      (∀ f ∈ current, ∀ g0 ∈ current.head?, f.tape = g0.tape) →
      ∀ g ∈ group_loop l [] current,
        g ≠ [] ∧ ∀ f ∈ g, ∀ g0 ∈ g.head?, f.tape = g0.tape
  | [], current => by
    intro hcur g hg
    by_cases h : current = []
    · simp [group_loop, h] at hg
    · simp only [group_loop, if_neg h, List.nil_append, List.mem_singleton] at hg
      subst hg
      exact ⟨h, hcur⟩
  | f :: rest, current => by
    intro hcur g hg
    cases current with
    | nil =>
      simp only [group_loop, List.head?, List.nil_append] at hg
      refine group_loop_good rest [f] ?_ g hg
      intro f' hf' g0 hg0
      simp at hf' hg0
      rw [hf', hg0]
    | cons g1 cur' =>
      simp only [group_loop, List.head?, List.nil_append] at hg
      by_cases h : g1.tape = f.tape
      · rw [if_pos h] at hg
        refine group_loop_good rest (g1 :: cur' ++ [f]) ?_ g hg
        intro f' hf' g0 hg0
        rw [Option.mem_def, show (g1 :: cur' ++ [f]).head? = some g1 from rfl,
          Option.some_inj] at hg0
        subst hg0
        rcases List.mem_cons.mp hf' with rfl | hf'
        · rfl
        · rcases List.mem_append.mp hf' with hf' | hf'
          · exact hcur f' (List.mem_cons_of_mem _ hf') g1 (by simp)
          · rw [List.mem_singleton.mp hf']
            exact h.symm
      · rw [if_neg h, group_loop_append rest [g1 :: cur'] [f]] at hg
        rcases List.mem_append.mp hg with hg | hg
        · rw [List.mem_singleton.mp hg]
          exact ⟨List.cons_ne_nil g1 cur', hcur⟩
        · refine group_loop_good rest [f] ?_ g hg
          intro f' hf' g0 hg0
          simp at hf' hg0
          rw [hf', hg0]

theorem group_loop_tapes_head :
    ∀ (l : List HpssFile) (c0 : HpssFile) (cur : List HpssFile),
      (tapes_of_groups (group_loop l [] (c0 :: cur))).head? = some c0.tape
  | [], c0, cur => by
    simp [group_loop, tapes_of_groups]
  | f :: rest, c0, cur => by
    simp only [group_loop, List.head?, List.nil_append]
    by_cases h : c0.tape = f.tape
    · rw [if_pos h]
      rw [show c0 :: cur ++ [f] = c0 :: (cur ++ [f]) from rfl]
      exact group_loop_tapes_head rest c0 (cur ++ [f])
    · rw [if_neg h, group_loop_append rest [c0 :: cur] [f]]
      simp [tapes_of_groups]

theorem group_loop_tapes_ascend :
    ∀ (l : List HpssFile) (c0 : HpssFile) (cur : List HpssFile),
      (∀ f ∈ c0 :: cur, f.tape = c0.tape) →
      List.Chain' (fun a b => file_le a b = true) ((c0 :: cur) ++ l) →
      List.Chain' (· < ·) (tapes_of_groups (group_loop l [] (c0 :: cur)))
  | [], c0, cur => by
    intro htape hchain
    simp [group_loop, tapes_of_groups]
  | f :: rest, c0, cur => by
    intro htape hchain
    simp only [group_loop, List.head?, List.nil_append]
    by_cases h : c0.tape = f.tape
    · rw [if_pos h]
      rw [show c0 :: cur ++ [f] = c0 :: (cur ++ [f]) from rfl]
      refine group_loop_tapes_ascend rest c0 (cur ++ [f]) ?_ ?_
      · intro f' hf'
        rcases List.mem_cons.mp hf' with rfl | hf'
        · rfl
        · rcases List.mem_append.mp hf' with hf' | hf'
          · exact htape f' (List.mem_cons_of_mem _ hf')
          · rw [List.mem_singleton.mp hf']
            exact h.symm
      · have : (c0 :: (cur ++ [f])) ++ rest = (c0 :: cur) ++ (f :: rest) := by
          simp
        rw [this]
        exact hchain
    · rw [if_neg h, group_loop_append rest [c0 :: cur] [f]]
      have hchainG : List.Chain' (· < ·) (tapes_of_groups (group_loop rest [] [f])) := by
        refine group_loop_tapes_ascend rest f [] ?_ ?_
        · intro f' hf'
          rw [List.mem_singleton.mp hf']
        · exact hchain.suffix ⟨c0 :: cur, rfl⟩
      have hlt : c0.tape < f.tape := by
        obtain ⟨-, -, hlink⟩ := List.chain'_append.mp hchain
        have hx := hlink ((c0 :: cur).getLast (List.cons_ne_nil c0 cur))
          (List.getLast?_eq_getLast _ _) f rfl
        have hxt : ((c0 :: cur).getLast (List.cons_ne_nil c0 cur)).tape = c0.tape :=
          htape _ (List.getLast_mem _)
        rcases file_le_iff.mp hx with hlt | ⟨heq, -⟩
        · rw [hxt] at hlt
          exact hlt
        · rw [hxt] at heq
          exact absurd heq h
      rw [show tapes_of_groups ([c0 :: cur] ++ group_loop rest [] [f])
          = c0.tape :: tapes_of_groups (group_loop rest [] [f]) from rfl]
      refine List.chain'_cons'.mpr ⟨?_, hchainG⟩
      intro y hy
      rw [group_loop_tapes_head rest f []] at hy
      rw [Option.mem_def, Option.some_inj] at hy
      rw [hy] at hlt
      exact hlt

end Syncer

namespace Syncer

theorem tapes_of_groups_mem_iff (gs : List (List HpssFile)) (L : List HpssFile)
    (hflat : gs.flatten = L)
    (hgood : ∀ g ∈ gs, g ≠ [] ∧ ∀ f ∈ g, ∀ g0 ∈ g.head?, f.tape = g0.tape) :
    ∀ t, t ∈ tapes_of_groups gs ↔ t ∈ L.map HpssFile.tape := by
  intro t
  constructor
  · intro ht
    obtain ⟨g, hg, hteq⟩ := List.mem_map.mp ht
    obtain ⟨hne, hsame⟩ := hgood g hg
    obtain ⟨g0, cur, rfl⟩ := List.exists_cons_of_ne_nil hne
    have hg0L : g0 ∈ L := by
      rw [← hflat]
      exact List.mem_flatten.mpr ⟨g0 :: cur, hg, List.mem_cons_self g0 cur⟩
    refine List.mem_map.mpr ⟨g0, hg0L, ?_⟩
    exact hteq
  · intro ht
    obtain ⟨f, hfL, rfl⟩ := List.mem_map.mp ht
    rw [← hflat] at hfL
    obtain ⟨g, hg, hfg⟩ := List.mem_flatten.mp hfL
    obtain ⟨hne, hsame⟩ := hgood g hg
    obtain ⟨g0, cur, rfl⟩ := List.exists_cons_of_ne_nil hne
    have hft : f.tape = g0.tape := hsame f hfg g0 (by simp)
    refine List.mem_map.mpr ⟨g0 :: cur, hg, ?_⟩
    rw [hft]
    rfl

theorem group_mem_sublist (files : List HpssFile) :
    ∀ g ∈ group_files_by_tape files, List.Sublist g (List.mergeSort files file_le) := by
  intro g hg
  unfold group_files_by_tape at hg
  obtain ⟨s, t, hdecomp⟩ := List.append_of_mem hg
  have hinf : g <:+: (group_loop (List.mergeSort files file_le) [] []).flatten := by
    rw [hdecomp, List.flatten_append, List.flatten_cons]
    exact ⟨s.flatten, t.flatten, by rw [List.append_assoc]⟩
  rw [group_loop_flatten, List.nil_append] at hinf
  exact hinf.sublist

theorem groups_good (files : List HpssFile) :
    ∀ g ∈ group_files_by_tape files,
      g ≠ [] ∧ ∀ f ∈ g, ∀ g0 ∈ g.head?, f.tape = g0.tape := by
  unfold group_files_by_tape
  exact group_loop_good (List.mergeSort files file_le) []
    (fun f hf => absurd hf (List.not_mem_nil f))

theorem groups_seek_chain (files : List HpssFile) :
    ∀ g ∈ group_files_by_tape files, List.Chain' seek_le g := by
  intro g hg
  have hpair : g.Pairwise (fun a b => file_le a b = true) :=
    List.Pairwise.sublist (group_mem_sublist files g hg) (sorted_planner_files files)
  obtain ⟨hne, hsame⟩ := groups_good files g hg
  obtain ⟨g0, cur, rfl⟩ := List.exists_cons_of_ne_nil hne
  refine List.Pairwise.chain' (List.Pairwise.imp_of_mem ?_ hpair)
  intro a b ha hb hab
  have hat : a.tape = g0.tape := hsame a ha g0 (by simp)
  have hbt : b.tape = g0.tape := hsame b hb g0 (by simp)
  rcases file_le_iff.mp hab with hlt | ⟨-, hseek⟩
  · rw [hat, hbt] at hlt
    exact absurd hlt (lt_irrefl _)
  · exact hseek

theorem files_of_group_ok :
    ∀ (g : List HpssFile) (fs : List TaccSyncFile),
      files_of_group g = .ok fs →
      List.Forall₂ (fun h tf => tf.hpss_path = ⟨h.hpss_path⟩ ∧ tf.size = h.size
        ∧ tf.tape_num = h.tape_num ∧ tf.tape_offset = h.tape_offset) g fs
  | [], fs => by
    intro hok
    simp only [files_of_group, Except.ok.injEq] at hok
    subst hok
    exact List.Forall₂.nil
  | h :: rest, fs => by
    intro hok
    simp only [files_of_group] at hok
    cases hto : to_tacc_sync_file h with
    | error e =>
      rw [hto] at hok
      exact absurd hok (by simp)
    | ok tf =>
      rw [hto] at hok
      cases hrec : files_of_group rest with
      | error e =>
        rw [hrec] at hok
        exact absurd hok (by simp)
      | ok tfs =>
        rw [hrec, Except.ok.injEq] at hok
        subst hok
        refine List.Forall₂.cons ?_ (files_of_group_ok rest tfs hrec)
        unfold to_tacc_sync_file at hto
        cases hpn : path_file_name h.hpss_path with
        | none =>
          rw [hpn] at hto
          exact absurd hto (by simp)
        | some name =>
          rw [hpn] at hto
          rw [Except.ok.injEq] at hto
          subst hto
          exact ⟨rfl, rfl, rfl, rfl⟩

theorem generate_work_units_from_ok :
    ∀ (gs : List (List HpssFile)) (rid now : Nat) (uuid : Nat → Nat)
      (i : Nat) (us : List TaccSyncWork),
      generate_work_units_from rid now uuid i gs = .ok us →
      List.Forall₂ (fun g u =>
        ∃ g0, g.head? = some g0 ∧ u.tape = ⟨g0.tape⟩ ∧ u.request_id = rid
          ∧ u.size = group_size g ∧ files_of_group g = .ok u.files) gs us
  | [], rid, now, uuid, i, us => by
    intro hok
    simp only [generate_work_units_from, Except.ok.injEq] at hok
    subst hok
    exact List.Forall₂.nil
  | g :: gs', rid, now, uuid, i, us => by
    intro hok
    simp only [generate_work_units_from] at hok
    cases hh : g.head? with
    | none =>
      rw [hh] at hok
      exact absurd hok (by simp)
    | some g0 =>
      rw [hh] at hok
      cases hfs : files_of_group g with
      | error e =>
        rw [hfs] at hok
        exact absurd hok (by simp)
      | ok fs =>
        rw [hfs] at hok
        cases hrec : generate_work_units_from rid now uuid (i + 1) gs' with
        | error e =>
          rw [hrec] at hok
          exact absurd hok (by simp)
        | ok us' =>
          rw [hrec, Except.ok.injEq] at hok
          subst hok
          refine List.Forall₂.cons ⟨g0, hh, rfl, rfl, rfl, hfs⟩
            (generate_work_units_from_ok gs' rid now uuid (i + 1) us' hrec)

theorem chain'_transport {α β : Type} {R : α → α → Prop} {S : β → β → Prop}
    {P : α → β → Prop}
    (hcompat : ∀ a a' b b', P a b → P a' b' → R a a' → S b b') :
    ∀ {l : List α} {m : List β}, List.Forall₂ P l m →
      List.Chain' R l → List.Chain' S m := by
  intro l m hf
  induction hf with
  | nil => intro _; exact List.chain'_nil
  | @cons a b l' m' hP hf ih =>
    intro hchain
    obtain ⟨hhead, htail⟩ := List.chain'_cons'.mp hchain
    refine List.chain'_cons'.mpr ⟨?_, ih htail⟩
    intro z hz
    cases hf with
    | nil => simp at hz
    | @cons a' b' l'' m'' hP2 hf2 =>
      rw [show (b' :: m'').head? = some b' from rfl, Option.mem_def,
        Option.some_inj] at hz
      subst hz
      exact hcompat a a' b b' hP hP2 (hhead a' (by simp))

theorem forall₂_map_eq {α β γ : Type} (f : α → γ) (h : β → γ) :
    ∀ {l : List α} {m : List β},
      List.Forall₂ (fun a b => h b = f a) l m → m.map h = l.map f := by
  intro l m hf
  induction hf with
  | nil => rfl
  | cons hP _ ih => simp [ih, hP]

theorem forall₂_mem_right {α β : Type} {P : α → β → Prop} :
    ∀ {l : List α} {m : List β}, List.Forall₂ P l m →
      ∀ b ∈ m, ∃ a ∈ l, P a b := by
  intro l m hf
  induction hf with
  | nil => intro b hb; simp at hb
  | @cons a b l' m' hP _ ih =>
    intro b' hb'
    rcases List.mem_cons.mp hb' with rfl | hb'
    · exact ⟨a, List.mem_cons_self a l', hP⟩
    · obtain ⟨a', ha', hPa⟩ := ih b' hb'
      exact ⟨a', List.mem_cons_of_mem a ha', hPa⟩

end Syncer

namespace Syncer

theorem forall₂_imp_of_mem_left {α β : Type} {P Q : α → β → Prop} :
    ∀ {l : List α} {m : List β}, List.Forall₂ P l m →
      (∀ a ∈ l, ∀ b, P a b → Q a b) → List.Forall₂ Q l m := by
  intro l m hf
  induction hf with
  | nil => intro _; exact .nil
  | @cons a b l' m' hP _ ih =>
    intro himp
    exact .cons (himp a (List.mem_cons_self _ _) b hP)
      (ih (fun a' ha' b' hb' => himp a' (List.mem_cons_of_mem _ ha') b' hb'))

theorem groups_tapes_ascend (files : List HpssFile) :
    List.Chain' (· < ·) (tapes_of_groups (group_files_by_tape files)) := by
  unfold group_files_by_tape
  cases hs : List.mergeSort files file_le with
  | nil => simp [group_loop, tapes_of_groups]
  | cons c0 rest =>
    simp only [group_loop, List.head?, List.nil_append]
    refine group_loop_tapes_ascend rest c0 [] ?_ ?_
    · intro f hf
      rw [List.mem_singleton.mp hf]
    · have hp := (sorted_planner_files files).chain'
      rw [hs] at hp
      simpa using hp

end Syncer

namespace Syncer

/-- Claim C3: the Planner partitions the sorted file sequence into exactly
k WorkUnits, where k is the number of distinct tape labels among the
matched files — the groups concatenate back to the sorted sequence, the
units' tape labels are strictly ascending (so one unit per label) and are
exactly the labels occurring among the files; every file grouped into a
unit carries that unit's tape label, each unit copies the request id and
sums its group's sizes, and the files within each unit are in
non-decreasing (tape_num, tape_offset, hpss_path) order. -/
theorem planner_partitions_by_tape
    (files : List HpssFile) (rid now : Nat) (uuid : Nat → Nat)
    (units : List TaccSyncWork)
    (hok : generate_work_units rid now uuid (group_files_by_tape files) = .ok units) :
    (group_files_by_tape files).flatten = List.mergeSort files file_le
    ∧ units.length = ((files.map HpssFile.tape).dedup).length
    ∧ List.Chain' (fun u v : TaccSyncWork => u.tape < v.tape) units
    ∧ (∀ t : Str, (⟨t⟩ : String) ∈ units.map TaccSyncWork.tape
        ↔ t ∈ files.map HpssFile.tape)
    ∧ List.Forall₂ (fun g u => (∀ f ∈ g, (⟨f.tape⟩ : String) = u.tape)
        ∧ u.request_id = rid ∧ u.size = group_size g
        ∧ files_of_group g = .ok u.files)
      (group_files_by_tape files) units
    ∧ (∀ u ∈ units, List.Chain' tacc_seek_le u.files) := by
  have hforall := generate_work_units_from_ok (group_files_by_tape files)
    rid now uuid 0 units hok
  have hflat : (group_files_by_tape files).flatten = List.mergeSort files file_le := by
    unfold group_files_by_tape
    rw [group_loop_flatten]
    rfl
  have hgood := groups_good files
  have hasc := groups_tapes_ascend files
  have hperm : List.Perm (List.mergeSort files file_le) files :=
    List.mergeSort_perm files file_le
  have hmapt : units.map TaccSyncWork.tape
      = (tapes_of_groups (group_files_by_tape files)).map
          (fun t => (⟨t⟩ : String)) := by
    unfold tapes_of_groups
    rw [List.map_map]
    refine forall₂_map_eq _ _ (List.Forall₂.imp ?_ hforall)
    intro g u hgu
    obtain ⟨g0, hh, htape, -⟩ := hgu
    rw [htape]
    show (⟨g0.tape⟩ : String) = ⟨(g.head?.map HpssFile.tape).getD []⟩
    rw [hh]
    rfl
  have hchain_units :
      List.Chain' (fun u v : TaccSyncWork => u.tape < v.tape) units := by
    have hchain_gs : List.Chain' (fun g g' : List HpssFile =>
        ((g.head?.map HpssFile.tape).getD [])
          < ((g'.head?.map HpssFile.tape).getD []))
        (group_files_by_tape files) := by
      have h := hasc
      unfold tapes_of_groups at h
      exact (List.chain'_map _).mp h
    refine chain'_transport ?_ hforall hchain_gs
    intro g g' u u' hgu hgu' hlt
    obtain ⟨g0, hh, ht, -⟩ := hgu
    obtain ⟨g0', hh', ht', -⟩ := hgu'
    rw [ht, ht']
    rw [hh, hh'] at hlt
    rw [String.lt_iff_toList_lt]
    exact hlt
  have hmem := tapes_of_groups_mem_iff (group_files_by_tape files)
    (List.mergeSort files file_le) hflat hgood
  have hmem_files : ∀ t : Str, (⟨t⟩ : String) ∈ units.map TaccSyncWork.tape
      ↔ t ∈ files.map HpssFile.tape := by
    intro t
    rw [hmapt]
    constructor
    · intro ht
      obtain ⟨t', ht', heq⟩ := List.mem_map.mp ht
      have ht'' : t' = t := congrArg String.data heq
      subst ht''
      have h1 := (hmem t').mp ht'
      exact ((hperm.map HpssFile.tape).mem_iff).mp h1
    · intro ht
      have h1 : t ∈ (List.mergeSort files file_le).map HpssFile.tape :=
        ((hperm.map HpssFile.tape).mem_iff).mpr ht
      exact List.mem_map.mpr ⟨t, (hmem t).mpr h1, rfl⟩
  have hnodup : (tapes_of_groups (group_files_by_tape files)).Nodup :=
    List.Pairwise.imp (fun h => ne_of_lt h) (List.chain'_iff_pairwise.mp hasc)
  have hlen : units.length = ((files.map HpssFile.tape).dedup).length := by
    have h1 : units.length = (tapes_of_groups (group_files_by_tape files)).length := by
      rw [← hforall.length_eq]
      unfold tapes_of_groups
      rw [List.length_map]
    have hperm_dedup : List.Perm (tapes_of_groups (group_files_by_tape files))
        (((List.mergeSort files file_le).map HpssFile.tape).dedup) := by
      rw [List.perm_ext_iff_of_nodup hnodup (List.nodup_dedup _)]
      intro a
      rw [List.mem_dedup]
      exact hmem a
    have h2 := hperm_dedup.length_eq
    have h3 := ((hperm.map HpssFile.tape).dedup).length_eq
    rw [h1, h2, h3]
  have hforall' : List.Forall₂ (fun g u => (∀ f ∈ g, (⟨f.tape⟩ : String) = u.tape)
      ∧ u.request_id = rid ∧ u.size = group_size g
      ∧ files_of_group g = .ok u.files)
      (group_files_by_tape files) units := by
    refine forall₂_imp_of_mem_left hforall ?_
    intro g hg u hgu
    obtain ⟨g0, hh, ht, hrid, hsize, hfiles⟩ := hgu
    refine ⟨?_, hrid, hsize, hfiles⟩
    intro f hf
    have hft : f.tape = g0.tape := (hgood g hg).2 f hf g0 hh
    rw [hft, ht]
  have hseek : ∀ u ∈ units, List.Chain' tacc_seek_le u.files := by
    intro u hu
    obtain ⟨g, hg, g0, hh, ht, hrid, hsize, hfiles⟩ :=
      forall₂_mem_right hforall u hu
    have hchain_g := groups_seek_chain files g hg
    have hcorr := files_of_group_ok g u.files hfiles
    refine chain'_transport ?_ hcorr hchain_g
    intro a a' b b' hPab hPa'b' hsk
    obtain ⟨hp, hs, hn, ho⟩ := hPab
    obtain ⟨hp', hs', hn', ho'⟩ := hPa'b'
    unfold tacc_seek_le
    unfold seek_le at hsk
    rw [hn, hn', ho, ho', hp, hp']
    rcases hsk with h | ⟨he, h⟩
    · exact Or.inl h
    · refine Or.inr ⟨he, ?_⟩
      rcases h with h | ⟨he2, h2⟩
      · exact Or.inl h
      · refine Or.inr ⟨he2, ?_⟩
        rw [String.le_iff_toList_le]
        exact h2
  exact ⟨hflat, hlen, hchain_units, hmem_files, hforall', hseek⟩

/-- Witness for C3: the three concrete files on two tapes produce exactly
the two expected work units, in ascending tape order. -/
theorem planner_partitions_by_tape_witness :
    generate_work_units 11 5 (fun i => 100 + i) (group_files_by_tape demo_hpss_files)
      = .ok demo_units
    ∧ demo_units.length = ((demo_hpss_files.map HpssFile.tape).dedup).length
    ∧ List.Chain' (fun u v : TaccSyncWork => u.tape < v.tape) demo_units := by
  have hms : List.mergeSort demo_hpss_files file_le = demo_hpss_files :=
    List.mergeSort_of_sorted (by decide)
  have hok : generate_work_units 11 5 (fun i => 100 + i)
      (group_files_by_tape demo_hpss_files) = .ok demo_units := by
    unfold group_files_by_tape
    rw [hms]
    rfl
  exact ⟨hok,
    (planner_partitions_by_tape demo_hpss_files 11 5 (fun i => 100 + i)
      demo_units hok).2.1,
    (planner_partitions_by_tape demo_hpss_files 11 5 (fun i => 100 + i)
      demo_units hok).2.2.1⟩

end Syncer
